import Mathlib

/-!
Verification of the local-compiler services of nekro-plugin-webapp.

The development shallowly embeds the two Node scripts
`src/services/local_compiler/build.js` (virtual-filesystem esbuild bundler)
and `src/services/local_compiler/check.js` (tsc type validation in a
disposable temp directory).  Strings are modelled by Lean strings, JS
objects by association lists, and JS string primitives (startsWith,
substring, includes, replace, split, join) by executable char-list
functions with the same semantics.
-/

/-- Model of JS String.prototype.startsWith. -/
def strStartsWith (s pre : String) : Bool :=
  pre.data.isPrefixOf s.data

/-- Model of JS String.prototype.endsWith. -/
def strEndsWith (s suf : String) : Bool :=
  suf.data.isSuffixOf s.data

/-- Model of JS String.prototype.substring(n) (drop the first n code points). -/
def strDrop (s : String) (n : Nat) : String :=
  String.mk (s.data.drop n)

/-- Model of JS String.prototype.trim. -/
def jsTrim (s : String) : String :=
  String.mk (((s.data.dropWhile Char.isWhitespace).reverse.dropWhile
    Char.isWhitespace).reverse)

/-- Split a char list on a single separator character, JS split semantics. -/
def splitOnChar (sep : Char) : List Char → List (List Char)
  | [] => [[]]
  | c :: rest =>
    let r := splitOnChar sep rest
    if c = sep then [] :: r
    else
      match r with
      | h :: t => (c :: h) :: t
      | [] => [[c]]

/-- Model of JS String.prototype.split with a one-character separator. -/
def strSplitOnChar (sep : Char) (s : String) : List String :=
  (splitOnChar sep s.data).map String.mk

/-- Model of Array.prototype.join with a string separator. -/
def joinWith (sep : String) : List String → String
  | [] => ""
  | [a] => a
  | a :: b :: rest => a ++ sep ++ joinWith sep (b :: rest)

/-- Remove trailing separator characters from a char list. -/
def rtrimSlashes (cs : List Char) : List Char :=
  (cs.reverse.dropWhile (fun c => c = '/')).reverse

/-- Index of the last separator in a char list, if any. -/
def lastSlashIdx (cs : List Char) : Option Nat :=
  (cs.reverse.findIdx? (fun c => c = '/')).map (fun j => cs.length - 1 - j)

/-- Model of Node path.posix.dirname. -/
def dirname (p : String) : String :=
  if p.isEmpty then "." else
  let cs := p.data
  let hasRoot := cs.head? = some '/'
  match lastSlashIdx (rtrimSlashes cs) with
  | none => if hasRoot then "/" else "."
  | some e =>
    if e = 0 then (if hasRoot then "/" else ".")
    else if hasRoot ∧ e = 1 then "//"
    else String.mk (cs.take e)

/-- Segment normalization used by Node path.posix.normalize: drops empty and
dot segments and collapses parent segments, keeping leading parent segments
only when the path is relative. -/
def normSegs (allowAbove : Bool) : List String → List String → List String
  | [], acc => acc.reverse
  | s :: rest, acc =>
    if s = "" ∨ s = "." then normSegs allowAbove rest acc
    else if s = ".." then
      match acc with
      | t :: acc2 =>
        if t = ".." then normSegs allowAbove rest (s :: t :: acc2)
        else normSegs allowAbove rest acc2
      | [] => if allowAbove then normSegs allowAbove rest [s]
              else normSegs allowAbove rest []
    else normSegs allowAbove rest (s :: acc)

/-- Model of Node path.posix.normalize. -/
def pathNormalize (p : String) : String :=
  if p.isEmpty then "." else
  let isAbs := strStartsWith p "/"
  let trail := strEndsWith p "/"
  let core := joinWith "/" (normSegs (!isAbs) (strSplitOnChar '/' p) [])
  let core := if core.isEmpty && !isAbs then "." else core
  let core := if !core.isEmpty && trail then core ++ "/" else core
  if isAbs then "/" ++ core else core

/-- Model of Node path.posix.join restricted to two arguments, as used by the
resolver. -/
def pathJoin (a b : String) : String :=
  let joined :=
    if a.isEmpty then b
    else if b.isEmpty then a
    else a ++ "/" ++ b
  if joined.isEmpty then "." else pathNormalize joined

/-- Outcome of the onResolve hook of the virtual-fs plugin in build.js. -/
inductive Resolved where
  | entryPoint (p : String)
  | virtualKey (p : String)
  | ignored (p : String)
  | external (p : String)
deriving DecidableEq

/-- Leading-separator strip applied to a joined relative path (build.js line
50). -/
def stripLead (r : String) : String :=
  if strStartsWith r "/" then strDrop r 1 else r

/-- The onResolve callback of build.js (lines 29-62), as a function of
the resolution kind (entry point or not), the specifier and the importer
path. -/
def resolve (isEntry : Bool) (s i : String) : Resolved :=
  if isEntry then .entryPoint s
  else if strStartsWith s "/" then .virtualKey (strDrop s 1)
  else if strStartsWith s "@/" then .virtualKey ("src/" ++ strDrop s 2)
  else if strStartsWith s "." then .virtualKey (stripLead (pathJoin (dirname i) s))
  else if strEndsWith s ".css" then .ignored s
  else .external s

lemma strStartsWith_atSlash_false {s : String} (h : strStartsWith s "@/" = true) :
    strStartsWith s "/" = false := by
  unfold strStartsWith at h ⊢
  rw [show ("@/".data) = ['@', '/'] from rfl] at h
  rw [show ("/".data) = ['/'] from rfl]
  cases hcs : s.data with
  | nil => rw [hcs] at h; simp [List.isPrefixOf] at h
  | cons c t =>
    rw [hcs] at h
    simp only [List.isPrefixOf, Bool.and_eq_true, beq_iff_eq] at h
    obtain ⟨h1, _⟩ := h
    subst h1
    simp [List.isPrefixOf]

lemma strStartsWith_dot_slash_false {s : String} (h : strStartsWith s "." = true) :
    strStartsWith s "/" = false := by
  unfold strStartsWith at h ⊢
  rw [show (".".data) = ['.'] from rfl] at h
  rw [show ("/".data) = ['/'] from rfl]
  cases hcs : s.data with
  | nil => rw [hcs] at h; simp [List.isPrefixOf] at h
  | cons c t =>
    rw [hcs] at h
    simp only [List.isPrefixOf, Bool.and_eq_true, beq_iff_eq] at h
    obtain ⟨h1, _⟩ := h
    subst h1
    simp [List.isPrefixOf]

lemma strStartsWith_dot_at_false {s : String} (h : strStartsWith s "." = true) :
    strStartsWith s "@/" = false := by
  unfold strStartsWith at h ⊢
  rw [show (".".data) = ['.'] from rfl] at h
  rw [show ("@/".data) = ['@', '/'] from rfl]
  cases hcs : s.data with
  | nil => rw [hcs] at h; simp [List.isPrefixOf] at h
  | cons c t =>
    rw [hcs] at h
    simp only [List.isPrefixOf, Bool.and_eq_true, beq_iff_eq] at h
    obtain ⟨h1, _⟩ := h
    subst h1
    simp [List.isPrefixOf]

/-- Claim C1: import resolution is a total (never-raising) function of
the resolution kind, specifier and importer, classifying in the fixed order: entry
point, root-absolute with the leading separator stripped, alias prefix
rewritten to the source root, relative join against the importer directory
with parent segments collapsed and a leading separator stripped, stylesheet
ignore, and finally external; in particular the alias specifier resolves to
the src-rooted key and the relative example joins and normalizes as claimed. -/
theorem resolver_classification :
    (∀ s i, resolve true s i = Resolved.entryPoint s) ∧
    (∀ s i, strStartsWith s "/" = true →
      resolve false s i = Resolved.virtualKey (strDrop s 1)) ∧
    (∀ s i, strStartsWith s "@/" = true →
      resolve false s i = Resolved.virtualKey ("src/" ++ strDrop s 2)) ∧
    (∀ s i, strStartsWith s "." = true →
      resolve false s i = Resolved.virtualKey (stripLead (pathJoin (dirname i) s))) ∧
    (∀ s i, strStartsWith s "/" = false → strStartsWith s "@/" = false →
      strStartsWith s "." = false → strEndsWith s ".css" = true →
      resolve false s i = Resolved.ignored s) ∧
    (∀ s i, strStartsWith s "/" = false → strStartsWith s "@/" = false →
      strStartsWith s "." = false → strEndsWith s ".css" = false →
      resolve false s i = Resolved.external s) ∧
    (∀ i, resolve false "@/utils/x" i = Resolved.virtualKey "src/utils/x") ∧
    (resolve false "../d" "a/b/c.ts" = Resolved.virtualKey "a/d") := by
  refine ⟨fun s i => rfl, fun s i h => by simp [resolve, h], ?_, ?_, ?_, ?_, ?_, by decide⟩
  · intro s i h
    simp [resolve, h, strStartsWith_atSlash_false h]
  · intro s i h
    simp [resolve, h, strStartsWith_dot_slash_false h, strStartsWith_dot_at_false h]
  · intro s i h1 h2 h3 h4
    simp [resolve, h1, h2, h3, h4]
  · intro s i h1 h2 h3 h4
    simp [resolve, h1, h2, h3, h4]
  · intro i
    have h : strStartsWith "@/utils/x" "@/" = true := by decide
    rw [show resolve false "@/utils/x" i =
      Resolved.virtualKey ("src/" ++ strDrop "@/utils/x" 2) from by
        simp [resolve, h, strStartsWith_atSlash_false h]]
    decide

/-- Claim C1 witness: concrete instances of each classification branch. -/
theorem resolver_classification_witness :
    resolve true "src/main.tsx" "" = Resolved.entryPoint "src/main.tsx" ∧
    resolve false "/src/a.ts" "src/main.tsx" = Resolved.virtualKey "src/a.ts" ∧
    resolve false "@/utils/x" "src/main.tsx" = Resolved.virtualKey "src/utils/x" ∧
    resolve false "../d" "a/b/c.ts" = Resolved.virtualKey "a/d" ∧
    resolve false "style.css" "src/main.tsx" = Resolved.ignored "style.css" ∧
    resolve false "lodash" "src/main.tsx" = Resolved.external "lodash" :=
  ⟨resolver_classification.1 "src/main.tsx" "",
   by
     have h := resolver_classification.2.1 "/src/a.ts" "src/main.tsx" (by decide)
     rw [h]; decide,
   resolver_classification.2.2.2.2.2.2.1 "src/main.tsx",
   resolver_classification.2.2.2.2.2.2.2,
   resolver_classification.2.2.2.2.1 "style.css" "src/main.tsx"
     (by decide) (by decide) (by decide) (by decide),
   resolver_classification.2.2.2.2.2.1 "lodash" "src/main.tsx"
     (by decide) (by decide) (by decide) (by decide)⟩

/-- Index of the last dot in a char list, if any. -/
def lastDotIdx (cs : List Char) : Option Nat :=
  (cs.reverse.findIdx? (fun c => c = '.')).map (fun j => cs.length - 1 - j)

/-- Model of Node path.posix.extname. -/
def extname (p : String) : String :=
  let b := (p.data.reverse.takeWhile (fun c => ¬ c = '/')).reverse
  match lastDotIdx b with
  | none => ""
  | some i =>
    if i = 0 then ""
    else if b = ['.', '.'] then ""
    else String.mk (b.drop i)

/-- The getLoader helper of build.js (lines 168-179): the esbuild loader is a
pure function of the file extension. -/
def getLoader (filename : String) : String :=
  let ext := extname filename
  if ext = ".js" then "jsx"
  else if ext = ".jsx" then "jsx"
  else if ext = ".ts" then "ts"
  else if ext = ".tsx" then "tsx"
  else if ext = ".css" then "css"
  else if ext = ".json" then "json"
  else "text"

/-- JS truthiness of an optional string: undefined and the empty string are
falsy. -/
def truthy : Option String → Bool
  | none => false
  | some s => !s.isEmpty

/-- The extension probe order of build.js line 73. -/
def vfsExtensions : List String :=
  [".tsx", ".ts", ".jsx", ".js", ".css", ".json"]

/-- The onLoad callback for the vfs namespace in build.js (lines 69-89):
look up the path, probe the extension list when the lookup is falsy, and
produce contents plus loader or a file-not-found error. -/
def loadVfs (files : List (String × String)) (p : String) :
    Except String (String × String) :=
  let content := files.lookup p
  if truthy content then Except.ok (content.getD "", getLoader p)
  else
    match vfsExtensions.findSome? (fun ext =>
      let c := files.lookup (p ++ ext)
      if truthy c then some (c.getD "", getLoader (p ++ ext)) else none) with
    | some r => Except.ok r
    | none => Except.error ("File not found in VFS: " ++ p)

lemma findSome?_first {α β : Type} (f : α → Option β) (pre : List α) (x : α)
    (post : List α) (r : β) (hpre : ∀ e ∈ pre, f e = none) (hx : f x = some r) :
    (pre ++ x :: post).findSome? f = some r := by
  induction pre with
  | nil => simp [List.findSome?_cons, hx]
  | cons a as ih =>
    have ha : f a = none := hpre a (by simp)
    simp only [List.cons_append, List.findSome?_cons, ha]
    exact ih (fun e he => hpre e (by simp [he]))

/-- Claim C2 counterexample: a key that is present in the map with empty
content is treated as absent by the loader; with the file set holding exactly
the key with empty content, loading it fails instead of using the present
content. -/
theorem vfs_load_empty_content_counterexample :
    [("a", "")].lookup "a" = some "" ∧
    loadVfs [("a", "")] "a" = Except.error ("File not found in VFS: " ++ "a") ∧
    loadVfs [("a", "")] "a" ≠ Except.ok ("", getLoader "a") := by
  refine ⟨by decide, by rfl, ?_⟩
  intro h
  rw [show loadVfs [("a", "")] "a" =
    Except.error ("File not found in VFS: " ++ "a") from rfl] at h
  exact Except.noConfusion h

/-- Claim C2 (amended): loading a resolved key k uses the exact entry only
when its content is non-empty; when the exact lookup is absent or empty, the
keys with the probe extensions in the fixed order tsx, ts, jsx, js, css,
json are tried and the first one present with non-empty content is used with
the loader of the probed key; when none qualifies, loading fails with a
file-not-found error naming exactly k. -/
theorem vfs_load_amended : ∀ (files : List (String × String)) (p : String),
    (∀ c, files.lookup p = some c → c.isEmpty = false →
      loadVfs files p = Except.ok (c, getLoader p)) ∧
    (truthy (files.lookup p) = false →
      ∀ pre ext post, vfsExtensions = pre ++ ext :: post →
        truthy (files.lookup (p ++ ext)) = true →
        (∀ e ∈ pre, truthy (files.lookup (p ++ e)) = false) →
        loadVfs files p =
          Except.ok ((files.lookup (p ++ ext)).getD "", getLoader (p ++ ext))) ∧
    (truthy (files.lookup p) = false →
      (∀ e ∈ vfsExtensions, truthy (files.lookup (p ++ e)) = false) →
      loadVfs files p = Except.error ("File not found in VFS: " ++ p)) := by
  intro files p
  refine ⟨?_, ?_, ?_⟩
  · intro c hc hne
    have ht : truthy (files.lookup p) = true := by
      rw [hc]; simp [truthy, hne]
    simp only [loadVfs, ht, if_true]
    rw [hc]
    rfl
  · intro hf pre ext post hsplit hext hpre
    simp only [loadVfs, hf, Bool.false_eq_true, if_false]
    rw [hsplit, findSome?_first _ pre ext post _ ?_ ?_]
    · intro e he
      simp [hpre e he]
    · simp [hext]
  · intro hf hall
    simp only [loadVfs, hf, Bool.false_eq_true, if_false]
    rw [List.findSome?_eq_none_iff.mpr ?_]
    intro x hx
    simp [hall x hx]

/-- Claim C2 witness: concrete loads exercising the exact-hit branch, the
probe branch and the not-found branch. -/
theorem vfs_load_amended_witness :
    loadVfs [("src/a.ts", "x")] "src/a.ts" =
      Except.ok ("x", getLoader "src/a.ts") ∧
    loadVfs [("src/a.ts", "x")] "src/a" = Except.ok ("x", "ts") ∧
    loadVfs [("src/b.ts", "x")] "src/a" =
      Except.error ("File not found in VFS: " ++ "src/a") := by
  refine ⟨?_, ?_, ?_⟩
  · exact (vfs_load_amended [("src/a.ts", "x")] "src/a.ts").1 "x"
      (by decide) (by decide)
  · have h := (vfs_load_amended [("src/a.ts", "x")] "src/a").2.1 (by decide)
      [".tsx"] ".ts" [".jsx", ".js", ".css", ".json"]
      (by decide) (by decide) (by decide)
    rw [h]; rfl
  · exact (vfs_load_amended [("src/b.ts", "x")] "src/a").2.2 (by decide)
      (by decide)

/-- First occurrence of a pattern in a char list: the part before the match
and the part after it. -/
def firstSplit (pat : List Char) : List Char → Option (List Char × List Char)
  | [] => if pat.isEmpty then some ([], []) else none
  | c :: rest =>
    if pat.isPrefixOf (c :: rest) then some ([], (c :: rest).drop pat.length)
    else
      match firstSplit pat rest with
      | some (a, b) => some (c :: a, b)
      | none => none

/-- Model of JS String.prototype.includes. -/
def jsIncludes (hay needle : String) : Bool :=
  (firstSplit needle.data hay.data).isSome

/-- Model of JS String.prototype.replace with a plain string pattern: only
the first occurrence is replaced. -/
def jsReplaceFirst (s pat repl : String) : String :=
  match firstSplit pat.data s.data with
  | some (a, b) => String.mk (a ++ repl.data ++ b)
  | none => s

lemma firstSplit_sound {pat : List Char} :
    ∀ {cs a b : List Char}, firstSplit pat cs = some (a, b) →
      cs = a ++ pat ++ b := by
  intro cs
  induction cs with
  | nil =>
    intro a b h
    cases pat with
    | nil => simp [firstSplit] at h; simp [h.1, h.2]
    | cons q qs => simp [firstSplit, List.isEmpty] at h
  | cons c rest ih =>
    intro a b h
    by_cases hp : pat.isPrefixOf (c :: rest) = true
    · simp only [firstSplit, hp, if_true] at h
      obtain ⟨t, ht⟩ := List.isPrefixOf_iff_prefix.mp hp
      injection h with h
      injection h with ha hb
      subst ha
      rw [← ht, List.drop_left] at hb
      subst hb
      simp [← ht]
    · simp only [firstSplit, hp, if_false, Bool.false_eq_true] at h
      cases hfs : firstSplit pat rest with
      | none => rw [hfs] at h; exact absurd h (by simp)
      | some ab =>
        obtain ⟨a2, b2⟩ := ab
        rw [hfs] at h
        injection h with h
        injection h with ha hb
        subst hb
        rw [← ha]
        have := ih hfs
        rw [this]
        simp

/-- The filter predicate of check.js lines 113-129: keep a line when it is
not blank and mentions neither of the two suppressed diagnostic codes. -/
def keepLine (line : String) : Bool :=
  !(jsTrim line).isEmpty && !jsIncludes line "error TS2307:" &&
    !jsIncludes line "error TS7016:"

/-- The map step of check.js lines 130-136: rewrite the first occurrence of
the scope root in a line that mentions it. -/
def mapLine (tmpDir line : String) : String :=
  if !tmpDir.isEmpty && jsIncludes line tmpDir then
    jsReplaceFirst line tmpDir "vfs:"
  else line

/-- The cleanedOutput computation of check.js lines 113-137: split on
newlines, filter, rewrite, rejoin. -/
def cleanOutput (tmpDir raw : String) : String :=
  joinWith "\n" (((strSplitOnChar '\n' raw).filter keepLine).map (mapLine tmpDir))

/-- Uniform result envelope printed by both scripts. -/
structure Envelope where
  success : Bool
  output : Option String
  error : Option String
  raw : Option String
  externals : Option (List String)
deriving DecidableEq

/-- Success envelope carrying only an output message. -/
def okEnv (msg : String) : Envelope :=
  { success := true, output := some msg, error := none, raw := none,
    externals := none }

/-- Failure envelope carrying only an error message. -/
def errEnv (msg : String) : Envelope :=
  { success := false, output := none, error := some msg, raw := none,
    externals := none }

/-- Message reported when filtering removed every diagnostic line
(check.js line 141). -/
def noiseSuccessMsg : String :=
  "No critical errors found (ignored missing modules)."

/-- Truncation marker appended by check.js line 147. -/
def truncMarker : String := "\n... (Status: Truncated due to length)"

/-- Classification of a failing checker run, check.js lines 113-154: filter
and rewrite the raw output, reclassify as success when nothing remains, and
otherwise emit a failure envelope with the (possibly truncated) filtered
text and the raw text. -/
def classifyCheckFailure (tmpDir raw : String) : Envelope :=
  if (jsTrim (cleanOutput tmpDir raw)).isEmpty then okEnv noiseSuccessMsg
  else if 2000 < (cleanOutput tmpDir raw).data.length then
    { success := false, output := none,
      error := some (String.mk ((cleanOutput tmpDir raw).data.take 2000) ++
        truncMarker),
      raw := some raw, externals := none }
  else
    { success := false, output := none,
      error := some (cleanOutput tmpDir raw),
      raw := some raw, externals := none }

lemma keepLine_false_iff (line : String) :
    keepLine line = false ↔
      ((jsTrim line).isEmpty = true ∨ jsIncludes line "error TS2307:" = true ∨
        jsIncludes line "error TS7016:" = true) := by
  unfold keepLine
  cases h1 : (jsTrim line).isEmpty <;>
    cases h2 : jsIncludes line "error TS2307:" <;>
    cases h3 : jsIncludes line "error TS7016:" <;> simp

/-- Claim C4: a line is dropped by the diagnostic filter exactly when it is
blank or mentions the cannot-find-module code TS2307 or the
missing-declaration-file code TS7016; and when every line of the raw output
is dropped, the request is reclassified as success with the
expected-noise message. -/
theorem diagnostic_filter_success :
    (∀ line, keepLine line = false ↔
      ((jsTrim line).isEmpty = true ∨ jsIncludes line "error TS2307:" = true ∨
        jsIncludes line "error TS7016:" = true)) ∧
    (∀ tmpDir raw, (∀ l ∈ strSplitOnChar '\n' raw,
        (jsTrim l).isEmpty = true ∨ jsIncludes l "error TS2307:" = true ∨
        jsIncludes l "error TS7016:" = true) →
      classifyCheckFailure tmpDir raw = okEnv noiseSuccessMsg) := by
  refine ⟨keepLine_false_iff, ?_⟩
  intro tmpDir raw hall
  have hfil : (strSplitOnChar '\n' raw).filter keepLine = [] := by
    rw [List.filter_eq_nil_iff]
    intro l hl
    simp [(keepLine_false_iff l).mpr (hall l hl)]
  unfold classifyCheckFailure cleanOutput
  rw [hfil]
  rfl

/-- Claim C4 witness: a raw output made only of a blank line and the two
suppressed codes is reclassified as success. -/
theorem diagnostic_filter_success_witness :
    classifyCheckFailure "/tmp/x"
      ("   \nerror TS2307: Cannot find module\nerror TS7016: no declarations") =
      okEnv noiseSuccessMsg :=
  diagnostic_filter_success.2 "/tmp/x" _ (by decide)

/-- Claim C7 counterexample: with a diagnostic line mentioning the scope
root twice, the rewritten report still contains the scope root, because the
string replace rewrites only the first occurrence per line. -/
theorem scope_path_rewrite_counterexample :
    cleanOutput "/tmp/scope"
        "/tmp/scope/a.ts(1,1): error TS2345: bad import from /tmp/scope/b.ts" =
      "vfs:/a.ts(1,1): error TS2345: bad import from /tmp/scope/b.ts" ∧
    jsIncludes (cleanOutput "/tmp/scope"
        "/tmp/scope/a.ts(1,1): error TS2345: bad import from /tmp/scope/b.ts")
      "/tmp/scope" = true := by
  constructor <;> rfl

/-- Claim C7 (amended): in each kept diagnostic line that mentions the
disposable scope root, one occurrence of the root (the first) is rewritten
to the virtual-root marker while later occurrences in the same line are left
unmodified; a report with one genuine error holding a single root reference
plus suppressed-code lines reports only the genuine error with the
project-relative path. -/
theorem scope_path_rewrite_amended :
    (∀ tmpDir line : String, tmpDir.isEmpty = false →
      jsIncludes line tmpDir = true →
      ∃ a b : List Char, line.data = a ++ tmpDir.data ++ b ∧
        (mapLine tmpDir line).data = a ++ "vfs:".data ++ b) ∧
    (cleanOutput "/tmp/scope"
        ("noise error TS2307: missing\n/tmp/scope/src/A.tsx(3,1): error TS2345: bad") =
      "vfs:/src/A.tsx(3,1): error TS2345: bad") := by
  constructor
  · intro tmpDir line hne hinc
    unfold jsIncludes at hinc
    cases hfs : firstSplit tmpDir.data line.data with
    | none => rw [hfs] at hinc; exact absurd hinc (by simp)
    | some ab =>
      obtain ⟨a, b⟩ := ab
      refine ⟨a, b, firstSplit_sound hfs, ?_⟩
      unfold mapLine jsIncludes
      rw [hne, hfs]
      simp [jsReplaceFirst, hfs]
  · rfl

/-- Claim C7 witness: a line holding one scope-root reference decomposes as
claimed around the rewritten marker. -/
theorem scope_path_rewrite_amended_witness :
    ∃ a b : List Char,
      ("/tmp/scope/src/A.tsx(3,1): error TS2345: bad" : String).data =
        a ++ ("/tmp/scope" : String).data ++ b ∧
      (mapLine "/tmp/scope" "/tmp/scope/src/A.tsx(3,1): error TS2345: bad").data =
        a ++ "vfs:".data ++ b :=
  scope_path_rewrite_amended.1 "/tmp/scope"
    "/tmp/scope/src/A.tsx(3,1): error TS2345: bad" (by decide) (by decide)

/-- Claim C9: when the filtered diagnostic text is non-blank, a text longer
than 2000 characters is reported as exactly its first 2000 characters
followed by the truncation marker while the raw field keeps the full
unfiltered output, and a text of at most 2000 characters is reported
unmodified. -/
theorem diagnostic_truncation : ∀ tmpDir raw : String,
    (jsTrim (cleanOutput tmpDir raw)).isEmpty = false →
    (2000 < (cleanOutput tmpDir raw).data.length →
      classifyCheckFailure tmpDir raw =
        { success := false, output := none,
          error := some (String.mk ((cleanOutput tmpDir raw).data.take 2000) ++
            truncMarker),
          raw := some raw, externals := none }) ∧
    ((cleanOutput tmpDir raw).data.length ≤ 2000 →
      classifyCheckFailure tmpDir raw =
        { success := false, output := none,
          error := some (cleanOutput tmpDir raw),
          raw := some raw, externals := none }) := by
  intro tmpDir raw h
  constructor
  · intro hlen
    unfold classifyCheckFailure
    rw [h, if_neg (by simp), if_pos hlen]
  · intro hlen
    have hnot : ¬ 2000 < (cleanOutput tmpDir raw).data.length := by omega
    unfold classifyCheckFailure
    rw [h, if_neg (by simp), if_neg hnot]

/-- Claim C9 witness: a short genuine diagnostic is reported unmodified with
the raw text retained. -/
theorem diagnostic_truncation_witness :
    classifyCheckFailure "/tmp/x" "error TS1234: boom" =
      { success := false, output := none,
        error := some (cleanOutput "/tmp/x" "error TS1234: boom"),
        raw := some "error TS1234: boom", externals := none } :=
  (diagnostic_truncation "/tmp/x" "error TS1234: boom" (by decide)).2 (by decide)

/-- Warning emitted when the external type checker is not installed
(check.js lines 79-82). -/
def tscMissingMsg : String :=
  "Warning: TypeScript compiler (tsc) not found in local_compiler. Skipping strict type check."

/-- Message emitted when the checker exits cleanly (check.js line 156). -/
def noErrorsMsg : String := "No errors found."

/-- Observable events of one type-validation request: scope creation,
checker invocation, scope removal (successful or failed and swallowed), and
emission of the response envelope. -/
inductive Ev where
  | create
  | execChecker
  | removeOk
  | removeFail
  | emit (e : Envelope)
deriving DecidableEq

/-- The possible control-flow paths of the check.js stdin handler. -/
inductive CheckScenario where
  | emptyInput
  | parseError (msg : String)
  | internalError (msg : String)
  | tscMissing
  | checkerOk
  | checkerFail (tmpDir raw : String)
deriving DecidableEq

/-- Event trace of check.js for each control-flow path, in source order:
empty input and parse errors throw before the scope exists; an internal
error after scope creation reaches the catch handler which removes then
emits; the tsc-not-found path emits the warning and then removes (lines
79-84); the exec callback removes first (lines 98-101) and then emits either
the success message or the classified failure.  The rmFails flag models a
cleanup failure, which is caught and swallowed. -/
def checkTrace (rmFails : Bool) : CheckScenario → List Ev
  | .emptyInput => [.emit (errEnv "No input data received")]
  | .parseError m => [.emit (errEnv m)]
  | .internalError m =>
    [.create, (if rmFails then Ev.removeFail else Ev.removeOk), .emit (errEnv m)]
  | .tscMissing =>
    [.create, .emit (okEnv tscMissingMsg),
      (if rmFails then Ev.removeFail else Ev.removeOk)]
  | .checkerOk =>
    [.create, .execChecker, (if rmFails then Ev.removeFail else Ev.removeOk),
      .emit (okEnv noErrorsMsg)]
  | .checkerFail td raw =>
    [.create, .execChecker, (if rmFails then Ev.removeFail else Ev.removeOk),
      .emit (classifyCheckFailure td raw)]

/-- The envelopes printed during a trace. -/
def emittedEnvelopes (t : List Ev) : List Envelope :=
  t.filterMap fun e =>
    match e with
    | .emit env => some env
    | _ => none

/-- Whether a successful scope removal happens strictly before the first
emitted response of a trace. -/
def removeOkBeforeEmit : List Ev → Bool
  | [] => false
  | Ev.removeOk :: _ => true
  | Ev.emit _ :: _ => false
  | _ :: rest => removeOkBeforeEmit rest

/-- Claim C3 counterexample: on the checker-executable-not-found path the
scope is created, but the response envelope is emitted before the scope
removal, so deletion does not precede emission on every exit path. -/
theorem scope_cleanup_order_counterexample :
    Ev.create ∈ checkTrace false CheckScenario.tscMissing ∧
    removeOkBeforeEmit (checkTrace false CheckScenario.tscMissing) = false ∧
    checkTrace false CheckScenario.tscMissing =
      [Ev.create, Ev.emit (okEnv tscMissingMsg), Ev.removeOk] := by
  decide

/-- Claim C3 (amended): on every exit path that created the disposable scope
the scope is removed; the removal precedes the emission of the response on
every such path except the checker-not-found path, where the warning
envelope is emitted first and the scope is removed immediately afterwards,
still within the same exit path; and a failing removal is swallowed without
changing the emitted response. -/
theorem scope_cleanup_amended : ∀ (rmFails : Bool) (s : CheckScenario),
    (Ev.create ∈ checkTrace false s → Ev.removeOk ∈ checkTrace false s) ∧
    (s ≠ CheckScenario.tscMissing → Ev.create ∈ checkTrace false s →
      removeOkBeforeEmit (checkTrace false s) = true) ∧
    (emittedEnvelopes (checkTrace rmFails s) =
      emittedEnvelopes (checkTrace false s)) := by
  intro rmFails s
  refine ⟨?_, ?_, ?_⟩
  · cases s <;> intro h <;> simp_all [checkTrace]
  · cases s <;> intro hne h
    · simp [checkTrace] at h
    · simp [checkTrace] at h
    · simp [checkTrace, removeOkBeforeEmit]
    · exact absurd rfl hne
    · simp [checkTrace, removeOkBeforeEmit]
    · simp [checkTrace, removeOkBeforeEmit]
  · cases s <;> cases rmFails <;> simp [checkTrace, emittedEnvelopes]

/-- Claim C3 witness: on the checker-ran-and-succeeded path the scope is
removed before emission, and a failing removal leaves the emitted envelopes
unchanged. -/
theorem scope_cleanup_amended_witness :
    Ev.removeOk ∈ checkTrace false CheckScenario.checkerOk ∧
    removeOkBeforeEmit (checkTrace false CheckScenario.checkerOk) = true ∧
    emittedEnvelopes (checkTrace true CheckScenario.checkerOk) =
      emittedEnvelopes (checkTrace false CheckScenario.checkerOk) :=
  ⟨(scope_cleanup_amended true CheckScenario.checkerOk).1 (by decide),
   (scope_cleanup_amended true CheckScenario.checkerOk).2.1 (by decide)
     (by decide),
   (scope_cleanup_amended true CheckScenario.checkerOk).2.2⟩

/-- Location attached to an esbuild error object. -/
structure ErrLocation where
  file : String
  line : Nat
  column : Nat
  lineText : String
deriving DecidableEq

/-- An esbuild error object as consumed by the catch handler of build.js. -/
structure BuildErr where
  text : String
  location : Option ErrLocation
deriving DecidableEq

/-- Model of the caret padding of build.js line 157: a caret padded with
spaces to the target length column plus one. -/
def caretAt (col : Nat) : String :=
  String.mk (List.replicate col ' ') ++ "^"

/-- Formatting of a single esbuild error (build.js lines 153-159). -/
def formatBuildErr (e : BuildErr) : String :=
  match e.location with
  | none => e.text
  | some l =>
    e.text ++ " at " ++ l.file ++ ":" ++ toString l.line ++ ":" ++
      toString l.column ++ "\n" ++ l.lineText ++ "\n" ++ caretAt l.column

/-- Error message construction of build.js lines 151-161: the exception
message, overridden by the joined formatted error list when present. -/
def formatBuildFailure (msg : String) (errs : List BuildErr) : String :=
  if errs.isEmpty then msg
  else joinWith "\n\n" (errs.map formatBuildErr)

/-- One lowercase hexadecimal digit. -/
def hexDigit (n : Nat) : Char :=
  if n < 10 then Char.ofNat (48 + n) else Char.ofNat (97 + n - 10)

/-- Four lowercase hexadecimal digits. -/
def hex4 (n : Nat) : String :=
  String.mk [hexDigit ((n / 4096) % 16), hexDigit ((n / 256) % 16),
    hexDigit ((n / 16) % 16), hexDigit (n % 16)]

/-- Escape of one character inside a JSON string literal. -/
def jsonEscapeChar (c : Char) : String :=
  if c = '"' then "\\\""
  else if c = '\\' then "\\\\"
  else if c = '\n' then "\\n"
  else if c = '\r' then "\\r"
  else if c = '\t' then "\\t"
  else if c = Char.ofNat 8 then "\\b"
  else if c = Char.ofNat 12 then "\\f"
  else if c.toNat < 32 then "\\u" ++ hex4 c.toNat
  else String.mk [c]

/-- Model of JSON.stringify applied to a string value. -/
def jsonStringify (v : String) : String :=
  "\"" ++ String.join (v.data.map jsonEscapeChar) ++ "\""

/-- The runtime stylesheet-injection preamble of build.js lines 129-139. -/
def injectScript (css : String) : String :=
  "\n(function() \x7b\n    try \x7b\n        const style = document.createElement(\x27style\x27);\n        style.textContent = " ++
    jsonStringify css ++
    ";\n        document.head.appendChild(style);\n    \x7d catch(e) \x7b\n        console.error(\x27Failed to inject CSS:\x27, e);\n    \x7d\n\x7d)();\n"

/-- Final program text of a successful bundle (build.js lines 127-141): the
injection preamble is prefixed exactly when stylesheet text was produced. -/
def buildOutput (js css : String) : String :=
  if css.isEmpty then js else injectScript css ++ js

/-- Model of spreading an array into a JS Set and back (build.js line 146):
keep the first occurrence of each element. -/
def jsSetDedup (l : List String) : List String :=
  l.foldl (fun acc a => if a ∈ acc then acc else acc ++ [a]) []

/-- The specifiers pushed onto collectedExternals (build.js line 60) by a
sequence of resolution requests, each given as import kind, specifier and
importer. -/
def collectExternals (reqs : List (Bool × String × String)) : List String :=
  reqs.filterMap fun r =>
    match resolve r.1 r.2.1 r.2.2 with
    | Resolved.external p => some p
    | _ => none

/-- The fixed entry point list of build.js line 95. -/
def buildEntryPoints : List String := ["src/main.tsx"]

/-- The fixed external package list of build.js line 103. -/
def alwaysExternalPkgs : List String := ["react", "react-dom", "react-dom/client"]

/-- The define map of build.js lines 104-112, as an ordered object literal:
the development default first, then one entry per request environment
variable; later entries override earlier ones. -/
def defineMap (envVars : List (String × String)) : List (String × String) :=
  ("process.env.NODE_ENV", "\"development\"") ::
    envVars.map (fun kv => ("process.env." ++ kv.1, jsonStringify kv.2))

/-- Lookup in a JS object built from an entry list: the last entry with the
key wins. -/
def objGet (entries : List (String × String)) (k : String) : Option String :=
  entries.foldl (fun acc kv => if kv.1 = k then some kv.2 else acc) none

/-- The possible control-flow paths of the build.js stdin handler. -/
inductive BuildScenario where
  | emptyInput
  | parseError (msg : String)
  | buildFail (msg : String) (errs : List BuildErr)
  | buildOk (js css : String) (reqs : List (Bool × String × String))
deriving DecidableEq

/-- The envelope printed by build.js for each control-flow path (success at
lines 143-147, failure at lines 149-163). -/
def buildRespond : BuildScenario → Envelope
  | .emptyInput => errEnv "No input data received"
  | .parseError m => errEnv m
  | .buildFail m errs => errEnv (formatBuildFailure m errs)
  | .buildOk js css reqs =>
    { success := true, output := some (buildOutput js css), error := none,
      raw := none, externals := some (jsSetDedup (collectExternals reqs)) }

/-- A result envelope is well formed when exactly one of output and error is
present and the success flag matches. -/
def wellFormedEnvelope (e : Envelope) : Prop :=
  (e.success = true ∧ e.output.isSome = true ∧ e.error = none) ∨
  (e.success = false ∧ e.error.isSome = true ∧ e.output = none)

lemma okEnv_wellFormed (m : String) : wellFormedEnvelope (okEnv m) :=
  Or.inl ⟨rfl, rfl, rfl⟩

lemma errEnv_wellFormed (m : String) : wellFormedEnvelope (errEnv m) :=
  Or.inr ⟨rfl, rfl, rfl⟩

lemma classifyCheckFailure_wellFormed (td raw : String) :
    wellFormedEnvelope (classifyCheckFailure td raw) := by
  unfold classifyCheckFailure
  split
  · exact okEnv_wellFormed _
  · split
    · exact Or.inr ⟨rfl, rfl, rfl⟩
    · exact Or.inr ⟨rfl, rfl, rfl⟩

/-- Claim C5: every modelled outcome of either pipeline, including empty
input, malformed payload and internal exceptions, produces exactly one
response envelope, and that envelope has exactly one of output (success) and
error (failure) present. -/
theorem result_envelope_wellformed :
    (∀ bs : BuildScenario, wellFormedEnvelope (buildRespond bs)) ∧
    (∀ (rf : Bool) (cs : CheckScenario),
      (emittedEnvelopes (checkTrace rf cs)).length = 1) ∧
    (∀ (rf : Bool) (cs : CheckScenario) (e : Envelope),
      e ∈ emittedEnvelopes (checkTrace rf cs) → wellFormedEnvelope e) := by
  refine ⟨?_, ?_, ?_⟩
  · intro bs
    cases bs <;> simp [buildRespond, wellFormedEnvelope, errEnv]
  · intro rf cs
    cases cs <;> cases rf <;> simp [checkTrace, emittedEnvelopes]
  · intro rf cs e he
    cases cs with
    | emptyInput =>
      cases rf <;> simp [checkTrace, emittedEnvelopes] at he <;> subst he <;>
        exact errEnv_wellFormed _
    | parseError m =>
      cases rf <;> simp [checkTrace, emittedEnvelopes] at he <;> subst he <;>
        exact errEnv_wellFormed _
    | internalError m =>
      cases rf <;> simp [checkTrace, emittedEnvelopes] at he <;> subst he <;>
        exact errEnv_wellFormed _
    | tscMissing =>
      cases rf <;> simp [checkTrace, emittedEnvelopes] at he <;> subst he <;>
        exact okEnv_wellFormed _
    | checkerOk =>
      cases rf <;> simp [checkTrace, emittedEnvelopes] at he <;> subst he <;>
        exact okEnv_wellFormed _
    | checkerFail td raw =>
      cases rf <;> simp [checkTrace, emittedEnvelopes] at he <;> subst he <;>
        exact classifyCheckFailure_wellFormed td raw

/-- Claim C5 witness: concrete envelopes from both pipelines are well
formed. -/
theorem result_envelope_wellformed_witness :
    wellFormedEnvelope (buildRespond BuildScenario.emptyInput) ∧
    wellFormedEnvelope (okEnv noErrorsMsg) :=
  ⟨result_envelope_wellformed.1 BuildScenario.emptyInput,
   result_envelope_wellformed.2.2 false CheckScenario.checkerOk
     (okEnv noErrorsMsg) (by decide)⟩

lemma jsSetDedup_go (l : List String) : ∀ acc : List String, acc.Nodup →
    (l.foldl (fun acc a => if a ∈ acc then acc else acc ++ [a]) acc).Nodup ∧
    (∀ s, s ∈ l.foldl (fun acc a => if a ∈ acc then acc else acc ++ [a]) acc ↔
      s ∈ acc ∨ s ∈ l) := by
  induction l with
  | nil => intro acc h; simp [h]
  | cons a rest ih =>
    intro acc h
    simp only [List.foldl_cons]
    by_cases ha : a ∈ acc
    · rw [if_pos ha]
      obtain ⟨h1, h2⟩ := ih acc h
      refine ⟨h1, fun s => ?_⟩
      rw [h2]
      constructor
      · rintro (hs | hs)
        · exact Or.inl hs
        · exact Or.inr (List.mem_cons_of_mem a hs)
      · rintro (hs | hs)
        · exact Or.inl hs
        · rcases List.mem_cons.mp hs with h3 | h3
          · exact Or.inl (h3 ▸ ha)
          · exact Or.inr h3
    · rw [if_neg ha]
      have hacc : (acc ++ [a]).Nodup := by
        rw [List.nodup_append]
        refine ⟨h, List.nodup_singleton a, ?_⟩
        intro x hx hxa
        rw [List.mem_singleton] at hxa
        subst hxa
        exact ha hx
      obtain ⟨h1, h2⟩ := ih (acc ++ [a]) hacc
      refine ⟨h1, fun s => ?_⟩
      rw [h2]
      simp [List.mem_append, List.mem_singleton, or_assoc]

lemma resolve_bare (s : String) (h1 : strStartsWith s "/" = false)
    (h2 : strStartsWith s "@/" = false) (h3 : strStartsWith s "." = false)
    (h4 : strEndsWith s ".css" = false) (i : String) :
    resolve false s i = Resolved.external s := by
  simp [resolve, h1, h2, h3, h4]

/-- Claim C6: the externals field of a successful bundle response is the
set-deduplicated list of specifiers the resolver classified as external, so
each encountered bare specifier appears exactly once even when imported from
several files; and the fixed always-external configuration consists of
react, react-dom and react-dom/client, each of which the resolver also
classifies as external. -/
theorem externals_dedup : ∀ (reqs : List (Bool × String × String)) (js css : String),
    (buildRespond (BuildScenario.buildOk js css reqs)).externals =
      some (jsSetDedup (collectExternals reqs)) ∧
    (jsSetDedup (collectExternals reqs)).Nodup ∧
    (∀ s, s ∈ jsSetDedup (collectExternals reqs) ↔ s ∈ collectExternals reqs) ∧
    (∀ s ∈ collectExternals reqs,
      (jsSetDedup (collectExternals reqs)).count s = 1) ∧
    alwaysExternalPkgs = ["react", "react-dom", "react-dom/client"] ∧
    (∀ p ∈ alwaysExternalPkgs, ∀ i, resolve false p i = Resolved.external p) := by
  intro reqs js css
  obtain ⟨h1, h2⟩ := jsSetDedup_go (collectExternals reqs) [] List.nodup_nil
  have hmem : ∀ s, s ∈ jsSetDedup (collectExternals reqs) ↔
      s ∈ collectExternals reqs := by
    intro s
    unfold jsSetDedup
    rw [h2 s]
    simp
  refine ⟨rfl, h1, hmem, ?_, rfl, ?_⟩
  · intro s hs
    exact List.count_eq_one_of_mem h1 ((hmem s).mpr hs)
  · intro p hp i
    rcases List.mem_cons.mp hp with h | hp2
    · subst h; exact resolve_bare _ (by decide) (by decide) (by decide) (by decide) i
    rcases List.mem_cons.mp hp2 with h | hp3
    · subst h; exact resolve_bare _ (by decide) (by decide) (by decide) (by decide) i
    rcases List.mem_cons.mp hp3 with h | hp4
    · subst h; exact resolve_bare _ (by decide) (by decide) (by decide) (by decide) i
    · cases hp4

/-- Claim C6 witness: a bare specifier imported from two files appears once
in the externals field. -/
theorem externals_dedup_witness :
    (buildRespond (BuildScenario.buildOk "js" ""
        [(false, "lodash", "src/main.tsx"), (false, "lodash", "src/App.tsx")])).externals =
      some ["lodash"] ∧
    (jsSetDedup (collectExternals
        [(false, "lodash", "src/main.tsx"), (false, "lodash", "src/App.tsx")])).count
      "lodash" = 1 ∧
    resolve false "react" "src/main.tsx" = Resolved.external "react" := by
  refine ⟨?_, ?_, ?_⟩
  · rw [(externals_dedup
      [(false, "lodash", "src/main.tsx"), (false, "lodash", "src/App.tsx")]
      "js" "").1]
    rfl
  · exact (externals_dedup
      [(false, "lodash", "src/main.tsx"), (false, "lodash", "src/App.tsx")]
      "js" "").2.2.2.1 "lodash" (by decide)
  · exact (externals_dedup [] "js" "").2.2.2.2.2 "react" (by decide)
      "src/main.tsx"

lemma objGet_no_match (k : String) : ∀ (l : List (String × String))
    (acc : Option String), (∀ kv ∈ l, kv.1 ≠ k) →
    l.foldl (fun acc kv => if kv.1 = k then some kv.2 else acc) acc = acc := by
  intro l
  induction l with
  | nil => intro acc _; rfl
  | cons kv rest ih =>
    intro acc h
    simp only [List.foldl_cons]
    rw [if_neg (h kv (by simp))]
    exact ih acc (fun x hx => h x (by simp [hx]))

lemma string_append_right_inj {a b c : String} (h : a ++ b = a ++ c) : b = c := by
  apply String.ext
  have h2 := congrArg String.data h
  rw [String.data_append, String.data_append] at h2
  exact List.append_cancel_left h2

lemma lookup_none_keys (k : String) : ∀ (l : List (String × String)),
    l.lookup k = none → ∀ kv ∈ l, kv.1 ≠ k := by
  intro l
  induction l with
  | nil => intro _ kv hkv; cases hkv
  | cons a rest ih =>
    intro h kv hkv
    by_cases hb : k = a.1
    · exfalso
      obtain ⟨a1, a2⟩ := a
      simp only [List.lookup] at h
      rw [show (k == a1) = true from beq_iff_eq.mpr hb] at h
      exact Option.noConfusion h
    · rcases List.mem_cons.mp hkv with h2 | h2
      · subst h2; exact fun he => hb he.symm
      · obtain ⟨a1, a2⟩ := a
        simp only [List.lookup] at h
        cases hbe : (k == a1) with
        | true => exact absurd (beq_iff_eq.mp hbe) hb
        | false => rw [hbe] at h; exact ih h kv h2

lemma objGet_mapped (k v : String) : ∀ (env : List (String × String))
    (acc : Option String), (env.map Prod.fst).Nodup → env.lookup k = some v →
    (env.map (fun kv => ("process.env." ++ kv.1, jsonStringify kv.2))).foldl
      (fun acc kv => if kv.1 = ("process.env." ++ k) then some kv.2 else acc)
      acc = some (jsonStringify v) := by
  intro env
  induction env with
  | nil => intro acc _ h; exact absurd h (by simp)
  | cons a rest ih =>
    intro acc hnd h
    obtain ⟨a1, a2⟩ := a
    simp only [List.map_cons, List.foldl_cons]
    by_cases hk : k = a1
    · subst hk
      simp only [List.lookup, beq_self_eq_true] at h
      injection h with h
      subst h
      rw [if_pos rfl]
      apply objGet_no_match
      intro kv hkv
      obtain ⟨x, hx, hxe⟩ := List.mem_map.mp hkv
      intro he
      rw [← hxe] at he
      have : x.1 = k := string_append_right_inj
        (show ("process.env." ++ x.1) = ("process.env." ++ k) from he)
      have hk1 : k ∈ rest.map Prod.fst := List.mem_map.mpr ⟨x, hx, this⟩
      have hnd2 : (k :: rest.map Prod.fst).Nodup := by simpa using hnd
      exact (List.nodup_cons.mp hnd2).1 hk1
    · simp only [List.lookup] at h
      rw [show (k == a1) = false from beq_eq_false_iff_ne.mpr hk] at h
      rw [if_neg (fun he => hk (string_append_right_inj he).symm)]
      have hnd2 : (a1 :: rest.map Prod.fst).Nodup := by simpa using hnd
      exact ih _ (List.nodup_cons.mp hnd2).2 h

/-- Claim C8: for every environment variable K with value v in the request
mapping (with its keys unique, as JSON objects have), the define map sends
the access pattern process.env.K to the JSON string literal of v, and sends
process.env.NODE_ENV to the development literal when the request does not
override NODE_ENV. -/
theorem env_define_map : ∀ (envVars : List (String × String)),
    (envVars.map Prod.fst).Nodup →
    (∀ k v, envVars.lookup k = some v →
      objGet (defineMap envVars) ("process.env." ++ k) =
        some (jsonStringify v)) ∧
    (envVars.lookup "NODE_ENV" = none →
      objGet (defineMap envVars) "process.env.NODE_ENV" =
        some "\"development\"") := by
  intro envVars hnd
  constructor
  · intro k v h
    unfold objGet defineMap
    simp only [List.foldl_cons]
    exact objGet_mapped k v envVars _ hnd h
  · intro h
    unfold objGet defineMap
    simp only [List.foldl_cons, if_pos rfl]
    apply objGet_no_match
    intro kv hkv
    obtain ⟨x, hx, hxe⟩ := List.mem_map.mp hkv
    intro he
    rw [← hxe] at he
    have hx1 : x.1 = "NODE_ENV" := string_append_right_inj
      (show ("process.env." ++ x.1) = ("process.env." ++ "NODE_ENV") from he)
    exact lookup_none_keys "NODE_ENV" envVars h x hx hx1

/-- Claim C8 witness: a request variable is substituted with its JSON
literal, NODE_ENV defaults to development when absent, and a request
NODE_ENV overrides the default. -/
theorem env_define_map_witness :
    objGet (defineMap [("API_URL", "x")]) "process.env.API_URL" =
      some (jsonStringify "x") ∧
    objGet (defineMap [("API_URL", "x")]) "process.env.NODE_ENV" =
      some "\"development\"" ∧
    objGet (defineMap [("NODE_ENV", "production")]) "process.env.NODE_ENV" =
      some (jsonStringify "production") :=
  ⟨(env_define_map [("API_URL", "x")] (by decide)).1 "API_URL" "x" (by decide),
   (env_define_map [("API_URL", "x")] (by decide)).2 (by decide),
   (env_define_map [("NODE_ENV", "production")] (by decide)).1 "NODE_ENV"
     "production" (by decide)⟩

/-- Claim C10: the bundle entry key is the fixed constant src/main.tsx,
independent of the request payload; the entry resolves into the virtual
namespace unchanged, and when the file map holds neither the entry key nor
any probed-extension variant of it, loading the entry fails with an error
naming src/main.tsx. -/
theorem entry_point_fixed :
    buildEntryPoints = ["src/main.tsx"] ∧
    (∀ s i, resolve true s i = Resolved.entryPoint s) ∧
    (∀ files : List (String × String),
      files.lookup "src/main.tsx" = none →
      (∀ ext ∈ vfsExtensions, files.lookup ("src/main.tsx" ++ ext) = none) →
      loadVfs files "src/main.tsx" =
        Except.error ("File not found in VFS: " ++ "src/main.tsx")) := by
  refine ⟨rfl, fun s i => rfl, ?_⟩
  intro files h1 h2
  have hf : truthy (files.lookup "src/main.tsx") = false := by rw [h1]; rfl
  simp only [loadVfs, hf, Bool.false_eq_true, if_false]
  rw [List.findSome?_eq_none_iff.mpr ?_]
  intro x hx
  simp [h2 x hx, truthy]

/-- Claim C10 witness: a file map without the entry or its variants makes
the entry load fail with the entry-specific message. -/
theorem entry_point_fixed_witness :
    loadVfs [("src/App.tsx", "x")] "src/main.tsx" =
      Except.error ("File not found in VFS: " ++ "src/main.tsx") :=
  entry_point_fixed.2.2 [("src/App.tsx", "x")] (by decide) (by decide)
